import Mathlib

/-!
Verification development for the `psk` interactive process-killer tool.

The definitions below are a shallow embedding of the Python sources:
  * `src/common/process_utils.py`   (system-process heuristic)
  * `src/process_killer/filter.py`  (exclusion / name-filter predicates)
  * `src/process_killer/prompt_utils.py` (the interactive selection engine)
  * `src/process_killer/display.py` (pre-filtering, label building, commit step)
  * `src/process_killer/sorter.py`  (sort strategies)
  * `src/process_killer/main.py`    (session controller, modelled as an effect trace)

Modelling conventions:
  * Python strings are Lean `String`s; lowercasing and substring tests are done
    on the underlying `List Char` so that everything kernel-reduces.
  * Python `int` is `Int` (the engine cursor can go negative, which matters).
  * Python float fields (`cpu`, `mem`) are modelled as `Int`: no claim in this
    development depends on fractional values, only on comparisons.
  * Python `set` is modelled as a duplicate-free `List Nat` with guarded
    insert/remove; only membership is ever observed.
  * Python list indexing `l[i]` with a possibly negative `i` is `pyGet`:
    negative indices wrap once from the end, out-of-range raises `IndexError`
    (represented by an explicit error outcome).
-/

/-- Lowercase a string character-wise (Python `str.lower` on the ASCII data
these programs handle). -/
def lowerStr (s : String) : List Char := s.data.map Char.toLower

/-- Python `needle in hay` substring test on character lists: true iff
`needle` occurs contiguously in `hay` (the empty needle always occurs). -/
def charsInfix (needle : List Char) : List Char → Bool
  | [] => needle.isEmpty
  | h :: t => needle.isPrefixOf (h :: t) || charsInfix needle t

/-- Python lexicographic string comparison `a <= b` on code points. -/
def charsLe : List Char → List Char → Bool
  | [], _ => true
  | _ :: _, [] => false
  | a :: as, b :: bs =>
      if a.toNat < b.toNat then true
      else if b.toNat < a.toNat then false
      else charsLe as bs

/-- Python `l[i]` for `Int` index `i`: nonnegative indices are positional,
negative indices wrap once from the end, anything else is `none`
(an `IndexError` in Python). -/
def pyGet (l : List α) (i : Int) : Option α :=
  if 0 ≤ i then l.get? i.toNat
  else if 0 ≤ i + l.length then l.get? (i + l.length).toNat
  else none

/-- ProcessInfo record (`src/process_killer/models.py`).  `cpu`/`mem` are the
float percents modelled as integers (see the header), `ptype` is the
source's `type` field. -/
structure ProcInfo where
  user : String
  pid : Int
  ppid : String
  cpu : Int
  mem : Int
  stat : String
  start : String
  uptime : String
  command : String
  name : String
  ptype : String
  selected : Bool := false
deriving DecidableEq, Repr

/-- SYSTEM_USERS constant from `src/common/process_utils.py`. -/
def SYSTEM_USERS : List String :=
  ["root", "daemon", "_", "nobody", "www", "mail", "sshd", "postfix"]

/-- SYSTEM_PROCESS_NAMES constant from `src/common/process_utils.py`. -/
def SYSTEM_PROCESS_NAMES : List String :=
  ["kernel_task", "launchd", "WindowServer", "loginwindow",
   "UserEventAgent", "syspolicyd", "trustd", "kextd",
   "fseventsd", "mds", "mdworker", "mdworker_shared",
   "cloudd", "com.apple", "com.apple.WebKit", "VTDecoderXPCService",
   "hidd", "distnoted", "coreaudiod", "bluetoothd", "airportd",
   "configd", "networksetupd", "networkd", "powerd", "thermalmonitord",
   "diskarbitrationd", "fsck", "fsck_hfs", "fsck_apfs", "mount",
   "kextstat", "kextload", "kextunload"]

/-- SYSTEM_PATHS constant from `src/common/process_utils.py`. -/
def SYSTEM_PATHS : List String := ["/system/", "/usr/libexec/"]

/-- Membership of any system-process name in the lowercased process name
(the `any(sys_name in process_name ...)` test of `is_system_process`). -/
def systemNameHit (processName : List Char) : Bool :=
  SYSTEM_PROCESS_NAMES.any (fun sysName => charsInfix sysName.data processName)

/-- Command-starts-with-system-path test of `is_system_process`. -/
def systemPathHit (command : List Char) : Bool :=
  SYSTEM_PATHS.any (fun path => path.data.isPrefixOf command)

/-- is_system_process from `src/common/process_utils.py`, embedded branch by
branch, including the `ppid == '1'` branch whose two outcomes are both
`False`. -/
def isSystemProcess (proc : ProcInfo) : Bool :=
  if proc.pid = 1 then true
  else if SYSTEM_USERS.contains proc.user then true
  else
    let processName := lowerStr proc.name
    let command := lowerStr proc.command
    if systemNameHit processName then true
    else if systemPathHit command then true
    else if proc.ppid = "1" then
      if !(SYSTEM_USERS.contains proc.user) && !(systemNameHit processName) then false
      else false
    else false

/-- The same classifier with the `ppid == '1'` branch removed, written from
the spec's words ("preserve return false as the resolved behavior"); it is
the comparison point for the dead-code refinement claim. -/
def isSystemProcessNoPpidBranch (proc : ProcInfo) : Bool :=
  if proc.pid = 1 then true
  else if SYSTEM_USERS.contains proc.user then true
  else
    let processName := lowerStr proc.name
    let command := lowerStr proc.command
    if systemNameHit processName then true
    else if systemPathHit command then true
    else false

/-- ProcessFilter.is_excluded from `src/process_killer/filter.py`: a process
is excluded when any exclusion keyword, lowercased, occurs in its lowercased
name; an empty exclusion list excludes nothing. -/
def filterIsExcluded (excludeList : List String) (proc : ProcInfo) : Bool :=
  excludeList.any (fun kw => charsInfix (lowerStr kw) (lowerStr proc.name))

/-- ProcessFilter.matches_name_filter from `src/process_killer/filter.py`:
vacuously true when no (or an empty) name filter is set. -/
def filterMatchesNameFilter (nameFilter : Option String) (proc : ProcInfo) : Bool :=
  match nameFilter with
  | none => true
  | some f => if f.isEmpty then true else charsInfix (lowerStr f) (lowerStr proc.name)

/-- The local is_excluded_process closure of `select_multiple_custom`
(`src/process_killer/prompt_utils.py` lines 62-69); same keyword test as
`ProcessFilter.is_excluded`. -/
def isExcludedProcess (excludeList : List String) (proc : ProcInfo) : Bool :=
  excludeList.any (fun kw => charsInfix (lowerStr kw) (lowerStr proc.name))

/-- Per-session inputs of `select_multiple_custom`
(`src/process_killer/prompt_utils.py`): the (value, label) choice pairs, the
optional process-data list, and the exclusion keywords.  These never change
while the engine runs. -/
structure Session where
  choices : List (Nat × String)
  processData : Option (List ProcInfo)
  excludeList : List String
deriving DecidableEq, Repr

/-- Mutable engine state: Python's closure cells `selected_indices`,
`current_index`, `filter_system`, `search_mode`, `search_query`,
`show_title_detail`, `title_detail_index`.  The cursor is an `Int` because
the source can drive it negative. -/
structure EngineState where
  selectedIndices : List Nat
  currentIndex : Int
  filterSystem : Bool
  searchMode : Bool
  searchQuery : String
  showTitleDetail : Bool
  titleDetailIndex : Nat
deriving DecidableEq, Repr

/-- Page size: the engine's `page_size = [20]`, never reassigned. -/
def pageSize : Int := 20

/-- The system/exclusion skip test of `get_filtered_choices` at row `idx`:
Python's `filter_system and process_data and idx < len(process_data)` guard
followed by the two predicates.  `processData.bind (List.get? idx)` is
`none` exactly when the Python guard is falsy (no data, empty data, or
`idx` out of range). -/
def systemSkip (processData : Option (List ProcInfo)) (excludeList : List String)
    (filterSystem : Bool) (idx : Nat) : Bool :=
  filterSystem &&
    match processData.bind (fun pd => pd.get? idx) with
    | some proc => isSystemProcess proc || isExcludedProcess excludeList proc
    | none => false

/-- The search skip test of `get_filtered_choices`: active search mode with a
nonempty query whose lowercase form does not occur in the lowercase label. -/
def searchSkip (searchMode : Bool) (query : String) (label : String) : Bool :=
  searchMode && !query.isEmpty && !(charsInfix (lowerStr query) (lowerStr label))

/-- Recursion of `get_filtered_choices` over the enumerated choice list. -/
def filterChoicesAux (processData : Option (List ProcInfo)) (excludeList : List String)
    (filterSystem searchMode : Bool) (query : String) :
    Nat → List (Nat × String) → List (Nat × String)
  | _, [] => []
  | idx, c :: rest =>
      if systemSkip processData excludeList filterSystem idx then
        filterChoicesAux processData excludeList filterSystem searchMode query (idx + 1) rest
      else if searchSkip searchMode query c.2 then
        filterChoicesAux processData excludeList filterSystem searchMode query (idx + 1) rest
      else
        c :: filterChoicesAux processData excludeList filterSystem searchMode query (idx + 1) rest

/-- get_filtered_choices from `src/process_killer/prompt_utils.py` lines
72-89, as a function of the session and the current state. -/
def getFilteredChoices (sess : Session) (s : EngineState) : List (Nat × String) :=
  filterChoicesAux sess.processData sess.excludeList s.filterSystem s.searchMode
    s.searchQuery 0 sess.choices

/-- get_page_start: `(current_index // page_size) * page_size` with Python
floor division. -/
def getPageStart (s : EngineState) : Int :=
  (s.currentIndex.fdiv pageSize) * pageSize

/-- get_page_end: `min(page_start + page_size, len(filtered))`. -/
def getPageEnd (sess : Session) (s : EngineState) : Int :=
  min (getPageStart s + pageSize) ((getFilteredChoices sess s).length : Int)

/-- Key events handled by the engine's bindings.  `char c` stands for a
character key routed through `handle_char` (the binding exists only for the
engine's allowed character set; other characters are unbound and ignored). -/
inductive Key where
  | up | down | pageup | pagedown | ctrlF | ctrlB | space | keyD | keyE
  | enter | keyQ | ctrlC | slash | char (c : Char) | backspace | escape
deriving DecidableEq, Repr

/-- Result of one key handler: continue with a new state, exit the
application with a result (`confirm` / `cancel`), or raise `IndexError`
(possible in the source when the cursor has gone negative on an empty
filtered view). -/
inductive StepResult where
  | cont (s : EngineState)
  | exitApp (r : Option (List Nat))
  | indexError
deriving DecidableEq, Repr

/-- Python `set` toggle used by `toggle_selection`: remove when present,
add when absent. -/
def toggleSel (sel : List Nat) (v : Nat) : List Nat :=
  if sel.contains v then sel.filter (fun x => x ≠ v) else v :: sel

/-- The engine's allowed search characters: ASCII letters, digits and the
punctuation string from the source, minus any character whose lowercase form
is `d`, `e` or `q` (those keep their command handlers). -/
def allowedChars : List Char :=
  ("abcdefghijklmnopqrstuvwxyzABCDEFGHIJKLMNOPQRSTUVWXYZ0123456789.-_()[]\x7b\x7d@#$%^&*+=!?;:,<>\\|`~'\\\"").data.filter
    (fun c => !(['d', 'e', 'q'].contains c.toLower))

/-- Shared body of the page_up handler (reached from `pageup` after the
detail check, and from `c-f` when no detail overlay is shown). -/
def pageUpBody (s : EngineState) : StepResult :=
  let ps := getPageStart s
  if 0 < ps then .cont { s with currentIndex := max 0 (ps - pageSize) }
  else .cont { s with currentIndex := 0 }

/-- Shared body of the page_down handler. -/
def pageDownBody (sess : Session) (s : EngineState) : StepResult :=
  let f := getFilteredChoices sess s
  let pe := getPageEnd sess s
  if pe < (f.length : Int) then .cont { s with currentIndex := min ((f.length : Int) - 1) pe }
  else .cont { s with currentIndex := (f.length : Int) - 1 }

/-- One key event, handler by handler, following the `@kb.add` bindings of
`select_multiple_custom` (`src/process_killer/prompt_utils.py` lines
264-418). -/
def handleKey (sess : Session) (s : EngineState) : Key → StepResult
  | .up =>
      if s.showTitleDetail then .cont { s with showTitleDetail := false }
      else if 0 < s.currentIndex then .cont { s with currentIndex := s.currentIndex - 1 }
      else .cont s
  | .down =>
      if s.showTitleDetail then .cont { s with showTitleDetail := false }
      else
        let f := getFilteredChoices sess s
        if s.currentIndex < (f.length : Int) - 1 then
          .cont { s with currentIndex := s.currentIndex + 1 }
        else .cont s
  | .pageup =>
      if s.showTitleDetail then .cont { s with showTitleDetail := false }
      else pageUpBody s
  | .pagedown =>
      if s.showTitleDetail then .cont { s with showTitleDetail := false }
      else pageDownBody sess s
  | .ctrlF => if s.showTitleDetail then .cont s else pageUpBody s
  | .ctrlB => if s.showTitleDetail then .cont s else pageDownBody sess s
  | .space =>
      if s.showTitleDetail then .cont { s with showTitleDetail := false }
      else if s.searchMode then
        .cont { s with searchQuery := s.searchQuery.push ' ', currentIndex := 0 }
      else
        let f := getFilteredChoices sess s
        if s.currentIndex < (f.length : Int) then
          match pyGet f s.currentIndex with
          | some c => .cont { s with selectedIndices := toggleSel s.selectedIndices c.1 }
          | none => .indexError
        else .cont s
  | .keyD =>
      if s.showTitleDetail then .cont { s with showTitleDetail := false }
      else
        match sess.processData with
        | none => .cont s
        | some pd =>
            let f := getFilteredChoices sess s
            if s.currentIndex < (f.length : Int) then
              match pyGet f s.currentIndex with
              | some c =>
                  if (c.1 : Int) < (pd.length : Int) then
                    .cont { s with showTitleDetail := true, titleDetailIndex := c.1 }
                  else .cont s
              | none => .indexError
            else .cont s
  | .keyE =>
      if s.showTitleDetail then .cont { s with showTitleDetail := false }
      else
        let s1 := { s with filterSystem := !s.filterSystem }
        let f := getFilteredChoices sess s1
        if (f.length : Int) ≤ s1.currentIndex then
          .cont { s1 with currentIndex := max 0 ((f.length : Int) - 1) }
        else .cont s1
  | .enter =>
      if s.showTitleDetail then .cont { s with showTitleDetail := false }
      else .exitApp (some s.selectedIndices)
  | .keyQ =>
      if s.showTitleDetail then .cont { s with showTitleDetail := false }
      else .exitApp none
  | .ctrlC =>
      if s.showTitleDetail then .cont { s with showTitleDetail := false }
      else .exitApp none
  | .slash =>
      if !s.showTitleDetail && !s.searchMode then
        .cont { s with searchMode := true, searchQuery := "", currentIndex := 0 }
      else if s.searchMode then
        .cont { s with searchQuery := s.searchQuery.push '/', currentIndex := 0 }
      else .cont s
  | .char c =>
      if allowedChars.contains c then
        if s.searchMode then
          .cont { s with searchQuery := s.searchQuery.push c, currentIndex := 0 }
        else .cont s
      else .cont s
  | .backspace =>
      if s.searchMode && !s.searchQuery.isEmpty then
        .cont { s with searchQuery := s.searchQuery.dropRight 1, currentIndex := 0 }
      else .cont s
  | .escape =>
      if s.showTitleDetail then .cont { s with showTitleDetail := false }
      else if s.searchMode then
        .cont { s with searchMode := false, searchQuery := "", currentIndex := 0 }
      else .cont s

/-- An input event: a bound key, or a keyboard interrupt delivered to
`app.run()` (caught by `select_multiple_custom` and turned into `None`). -/
inductive Event where
  | key (k : Key)
  | interrupt
deriving DecidableEq, Repr

/-- The engine loop status after consuming a prefix of the event stream. -/
inductive RunState where
  | running (s : EngineState)
  | exited (r : Option (List Nat))
  | crashed
deriving DecidableEq, Repr

/-- One event of the engine loop. -/
def stepEvent (sess : Session) : RunState → Event → RunState
  | .running s, .key k =>
      match handleKey sess s k with
      | .cont s1 => .running s1
      | .exitApp r => .exited r
      | .indexError => .crashed
  | .running _, .interrupt => .exited none
  | st, _ => st

/-- Run the engine over an event stream. -/
def runEvents (sess : Session) (s0 : EngineState) (evts : List Event) : RunState :=
  evts.foldl (stepEvent sess) (.running s0)

/-- Initial engine state of a session: no defaults selected (the only caller
passes `default_values=None`), cursor 0, hide-toggle as given, search off,
no overlay. -/
def initEngineState (hideSystemProcesses : Bool) : EngineState :=
  { selectedIndices := []
    currentIndex := 0
    filterSystem := hideSystemProcesses
    searchMode := false
    searchQuery := ""
    showTitleDetail := false
    titleDetailIndex := 0 }

/-- Keep-condition of the pre-filter loop of `ProcessDisplay.select_processes`
(`src/process_killer/display.py` lines 48-66): drop the tool's own pid, then
system processes, then excluded processes, then name-filter misses.  The
three predicate parameters are wired exactly as `ProcessKiller` wires them
(`filter.is_system_process`, `filter.is_excluded`,
`filter.matches_name_filter`). -/
def prefilterKeep (currentPid : Int) (excludeList : List String)
    (nameFilter : Option String) (proc : ProcInfo) : Bool :=
  !(proc.pid = currentPid) &&
  !(isSystemProcess proc) &&
  !(filterIsExcluded excludeList proc) &&
  !(nameFilterTruthy nameFilter && !(filterMatchesNameFilter nameFilter proc))
where
  /-- Python truthiness of `name_filter` in `if name_filter and ... and not matches`. -/
  nameFilterTruthy : Option String → Bool
    | none => false
    | some f => !f.isEmpty

/-- The `filtered_processes` list of `select_processes`. -/
def prefilterProcesses (currentPid : Int) (excludeList : List String)
    (nameFilter : Option String) (processes : List ProcInfo) : List ProcInfo :=
  processes.filter (prefilterKeep currentPid excludeList nameFilter)

/-- The choice list built by `select_processes`: `(i, label)` for each
pre-filtered process.  Label rendering (fixed-width columns, emoji flags,
truncation) is kept abstract as `mkLabel`; no claim in this development
depends on label text, only on the pairing of the stable index with a label. -/
def mkChoices (mkLabel : Nat → ProcInfo → String) (fp : List ProcInfo) :
    List (Nat × String) :=
  fp.enum.map (fun p => (p.1, mkLabel p.1 p.2))

/-- The clearing pass of the commit step: `for proc in processes:
proc.selected = False`. -/
def clearSelected (processes : List ProcInfo) : List ProcInfo :=
  processes.map (fun p => { p with selected := false })

/-- Mark as selected the first record whose pid matches (the inner
`for proc in processes: if proc.pid == original_proc.pid: ...; break`). -/
def markFirst (pid : Int) : List ProcInfo → List ProcInfo
  | [] => []
  | p :: rest =>
      if p.pid = pid then { p with selected := true } :: rest
      else p :: markFirst pid rest

/-- The commit loop of `select_processes` (`src/process_killer/display.py`
lines 134-146): clear every flag, then for each returned index in range,
mark the first record whose pid matches that of the pre-filtered record at
the index. -/
def applySelectedIndices (processes fp : List ProcInfo) (idxs : List Nat) :
    List ProcInfo :=
  idxs.foldl
    (fun acc idx =>
      match fp.get? idx with
      | some originalProc => markFirst originalProc.pid acc
      | none => acc)
    (clearSelected processes)

/-- Effects observable in the session-controller trace model.  The
interactive confirm / SIGTERM / SIGKILL flow of
`ProcessTerminator.kill_selected_processes` past its empty-selection check is
abstracted as the single `terminationPhase` effect, reached only when some
record is selected. -/
inductive Eff where
  | banner
  | invalidSortMsg (given : String)
  | availableOptions (keys : List String)
  | printCollecting
  | collectProcesses
  | printCollectFailed
  | printNoMatch
  | printNoDisplay
  | uiLaunched
  | uiUnfinished
  | uiCrashed
  | printNoneSelectedDisplay
  | killerInvoked
  | printNoneSelectedKiller
  | terminationPhase (pids : List Int)
  | friendlyExit
deriving DecidableEq, Repr

/-- The engine session that `select_processes` builds: the enumerated
choice pairs over the pre-filtered processes, the pre-filtered processes as
process data, and the exclusion keywords. -/
def displayEngineSession (currentPid : Int) (excludeList : List String)
    (nameFilter : Option String) (mkLabel : Nat → ProcInfo → String)
    (processes : List ProcInfo) : Session :=
  ⟨mkChoices mkLabel (prefilterProcesses currentPid excludeList nameFilter processes),
   some (prefilterProcesses currentPid excludeList nameFilter processes),
   excludeList⟩

/-- ProcessDisplay.select_processes as a pure function: returns the
caller's process list (with flags updated only by a confirmed non-empty
selection) and the effects it performs.  `evts` drives the engine session;
an event stream that leaves the session running or crashed is marked with a
dedicated effect and commits nothing. -/
def selectProcessesModel (currentPid : Int) (excludeList : List String)
    (nameFilter : Option String) (mkLabel : Nat → ProcInfo → String)
    (processes : List ProcInfo) (evts : List Event) :
    List ProcInfo × List Eff :=
  if processes.isEmpty then (processes, [])
  else
    let fp := prefilterProcesses currentPid excludeList nameFilter processes
    if fp.isEmpty then (processes, [.printNoDisplay])
    else
      let sess : Session := displayEngineSession currentPid excludeList nameFilter mkLabel processes
      match runEvents sess (initEngineState true) evts with
      | .running _ => (processes, [.uiLaunched, .uiUnfinished])
      | .crashed => (processes, [.uiLaunched, .uiCrashed])
      | .exited none => (processes, [.uiLaunched])
      | .exited (some idxs) =>
          if idxs.isEmpty then (processes, [.uiLaunched, .printNoneSelectedDisplay])
          else (applySelectedIndices processes fp idxs, [.uiLaunched])

/-- Insertion of one element for the stable-sort model. -/
def insertLe (le : α → α → Bool) (x : α) : List α → List α
  | [] => [x]
  | y :: ys => if le x y then x :: y :: ys else y :: insertLe le x ys

/-- Comparison-based sort modelling Python `sorted`; the claims only use
that the result is a permutation of the input. -/
def sortLe (le : α → α → Bool) (l : List α) : List α :=
  l.foldr (insertLe le) []

/-- sort_general: descending by `cpu + mem`. -/
def sortGeneral (l : List ProcInfo) : List ProcInfo :=
  sortLe (fun a b => (b.cpu + b.mem) ≤ (a.cpu + a.mem)) l

/-- sort_memory: descending by `mem`. -/
def sortMemory (l : List ProcInfo) : List ProcInfo :=
  sortLe (fun a b => b.mem ≤ a.mem) l

/-- sort_cpu: descending by `cpu`. -/
def sortCpu (l : List ProcInfo) : List ProcInfo :=
  sortLe (fun a b => b.cpu ≤ a.cpu) l

/-- sort_uptime: ascending by the raw `start` string. -/
def sortUptime (l : List ProcInfo) : List ProcInfo :=
  sortLe (fun a b => charsLe a.start.data b.start.data) l

/-- Zombie test `'Z' in proc.stat`. -/
def isZombie (p : ProcInfo) : Bool := p.stat.contains 'Z'

/-- sort_zombie: zombies first, others after, each group in input order. -/
def sortZombie (l : List ProcInfo) : List ProcInfo :=
  l.filter isZombie ++ l.filter (fun p => !isZombie p)

/-- Keys of the `ProcessSorter.sort_options` dictionary, in source order. -/
def sortOptionKeys : List String :=
  ["general", "memory", "cpu", "uptime", "zombie"]

/-- Dispatch from a sort-option key to its sort function (the dictionary
lookup `self.sort_options[choice]`; only ever reached for a valid key, the
catch-all is the identity). -/
def sortByChoice (choice : String) (l : List ProcInfo) : List ProcInfo :=
  if choice = "general" then sortGeneral l
  else if choice = "memory" then sortMemory l
  else if choice = "cpu" then sortCpu l
  else if choice = "uptime" then sortUptime l
  else if choice = "zombie" then sortZombie l
  else l

/-- ProcessTerminator.kill_selected_processes up to its empty-selection
check (`src/process_killer/killer.py` lines 21-27); the interactive
termination flow behind a non-empty selection is the abstract
`terminationPhase` effect. -/
def killSelectedEffs (processes : List ProcInfo) : List Eff :=
  let selected := processes.filter (fun p => p.selected)
  .killerInvoked ::
    (if selected.isEmpty then [.printNoneSelectedKiller]
     else [.terminationPhase (selected.map (fun p => p.pid))])

/-- ProcessKiller._execute_sort_option as an effect trace, parameterised by
the collector's snapshot and the engine's event stream. -/
def executeSortOption (choice : String) (allProcesses : List ProcInfo)
    (currentPid : Int) (excludeList : List String) (nameFilter : Option String)
    (mkLabel : Nat → ProcInfo → String) (evts : List Event) : List Eff :=
  .printCollecting :: .collectProcesses ::
    (if allProcesses.isEmpty then [.printCollectFailed]
     else
       let sorted := sortByChoice choice allProcesses
       if sorted.isEmpty then [.printNoMatch]
       else
         let r := selectProcessesModel currentPid excludeList nameFilter mkLabel sorted evts
         r.2 ++ killSelectedEffs r.1)

/-- ProcessKiller.run with a `--by` value (`src/process_killer/main.py`
lines 62-83): print the banner, reject an unknown sort mode listing the
valid option keys, otherwise run one sort-select-kill pass.  No exception
arises inside the modelled pass (the engine converts interrupts to `None`
and the killer catches its own cancellations), so the friendly-exit handler
of the `try` block contributes no effect here. -/
def runWithSortBy (sortBy : String) (allProcesses : List ProcInfo)
    (currentPid : Int) (excludeList : List String) (nameFilter : Option String)
    (mkLabel : Nat → ProcInfo → String) (evts : List Event) : List Eff :=
  .banner ::
    (if sortOptionKeys.contains sortBy then
      executeSortOption sortBy allProcesses currentPid excludeList nameFilter mkLabel evts
     else
      [.invalidSortMsg sortBy, .availableOptions sortOptionKeys])

/-- The render checkbox test of `render_content` line 163:
`is_selected = original_idx in selected_indices`. -/
def renderChecked (selectedIndices : List Nat) (originalIdx : Nat) : Bool :=
  selectedIndices.contains originalIdx

/-- A successful Python index into a list yields a member of the list. -/
theorem pyGet_mem {l : List α} {i : Int} {a : α} (h : pyGet l i = some a) : a ∈ l := by
  unfold pyGet at h
  split at h
  · exact List.get?_mem h
  · split at h
    · exact List.get?_mem h
    · cases h

/-- Every entry of the filtered view is an entry of the session's choices. -/
theorem mem_filterChoicesAux {pd : Option (List ProcInfo)} {excl : List String}
    {fs sm : Bool} {q : String} :
    ∀ {n : Nat} {cs : List (Nat × String)} {c : Nat × String},
      c ∈ filterChoicesAux pd excl fs sm q n cs → c ∈ cs := by
  intro n cs
  induction cs generalizing n with
  | nil => intro c h; simp [filterChoicesAux] at h
  | cons hd tl ih =>
      intro c h
      simp only [filterChoicesAux] at h
      split at h
      · exact List.mem_cons_of_mem hd (ih h)
      · split at h
        · exact List.mem_cons_of_mem hd (ih h)
        · rcases List.mem_cons.mp h with h1 | h1
          · exact h1 ▸ List.mem_cons_self hd tl
          · exact List.mem_cons_of_mem hd (ih h1)

/-- Every entry of the filtered view comes from the choice list. -/
theorem mem_getFilteredChoices {sess : Session} {s : EngineState} {c : Nat × String}
    (h : c ∈ getFilteredChoices sess s) : c ∈ sess.choices :=
  mem_filterChoicesAux h

/-- The filtered view reads only the hide-toggle, search flag and query from
the state. -/
theorem getFilteredChoices_congr {sess : Session} {s t : EngineState}
    (h1 : s.filterSystem = t.filterSystem) (h2 : s.searchMode = t.searchMode)
    (h3 : s.searchQuery = t.searchQuery) :
    getFilteredChoices sess s = getFilteredChoices sess t := by
  unfold getFilteredChoices
  rw [h1, h2, h3]

/-- When no row can trip the system/exclusion skip, the hide-toggle value is
irrelevant to the filtered view. -/
theorem filterChoicesAux_filterSystem_irrel {pd : Option (List ProcInfo)}
    {excl : List String} (hskip : ∀ fs idx, systemSkip pd excl fs idx = false)
    (fs1 fs2 sm : Bool) (q : String) :
    ∀ (n : Nat) (cs : List (Nat × String)),
      filterChoicesAux pd excl fs1 sm q n cs = filterChoicesAux pd excl fs2 sm q n cs := by
  intro n cs
  induction cs generalizing n with
  | nil => rfl
  | cons hd tl ih =>
      simp only [filterChoicesAux, hskip fs1 n, hskip fs2 n]
      split
      · exact ih (n + 1)
      · rw [ih (n + 1)]

/-- Membership after a set toggle: either it was there before, or it is the
toggled element. -/
theorem mem_toggleSel {sel : List Nat} {x v : Nat} (h : v ∈ toggleSel sel x) :
    v ∈ sel ∨ v = x := by
  unfold toggleSel at h
  split at h
  · exact Or.inl (List.mem_of_mem_filter h)
  · rcases List.mem_cons.mp h with h1 | h1
    · exact Or.inr h1
    · exact Or.inl h1

/-- Selection footprint of one key handler: a continuing step either leaves
the selected set untouched or toggles the value component of some entry of
the current filtered view (only `toggle_selection` touches it). -/
theorem handleKey_selected_sub (sess : Session) (s s' : EngineState) (k : Key)
    (h : handleKey sess s k = .cont s') :
    s'.selectedIndices = s.selectedIndices ∨
      ∃ c, c ∈ getFilteredChoices sess s ∧
        s'.selectedIndices = toggleSel s.selectedIndices c.1 := by
  cases k <;>
    simp only [handleKey, pageUpBody, pageDownBody] at h <;>
    (repeat' split at h) <;>
    solve
      | (injection h with h1; subst h1; exact Or.inl rfl)
      | injection h
      | (rename_i c heq
         injection h with h1; subst h1
         exact Or.inr ⟨c, pyGet_mem heq, rfl⟩)

/-- Keys that flip the hide-toggle or edit the search query: `e`, `/`,
printable characters, Backspace, Escape. -/
def isFilterOrSearchKey : Key → Bool
  | .keyE => true
  | .slash => true
  | .char _ => true
  | .backspace => true
  | .escape => true
  | _ => false

/-- Keys that edit the search query while Search mode is active. -/
def isQueryKey : Key → Bool
  | .char _ => true
  | .backspace => true
  | .space => true
  | .slash => true
  | _ => false

/-- Hide-toggle and search-editing handlers always continue and never touch
the selected set. -/
theorem handleKey_filterSearch_selected (sess : Session) (s : EngineState) (k : Key)
    (hk : isFilterOrSearchKey k = true) :
    ∃ s', handleKey sess s k = .cont s' ∧ s'.selectedIndices = s.selectedIndices := by
  cases k with
  | keyE =>
      simp only [handleKey]
      repeat' split
      all_goals exact ⟨_, rfl, rfl⟩
  | slash =>
      simp only [handleKey]
      repeat' split
      all_goals exact ⟨_, rfl, rfl⟩
  | char c =>
      simp only [handleKey]
      repeat' split
      all_goals exact ⟨_, rfl, rfl⟩
  | backspace =>
      simp only [handleKey]
      repeat' split
      all_goals exact ⟨_, rfl, rfl⟩
  | escape =>
      simp only [handleKey]
      repeat' split
      all_goals exact ⟨_, rfl, rfl⟩
  | _ => simp [isFilterOrSearchKey] at hk

/-- Query-editing handlers in Search mode (no detail overlay) continue,
keep Search mode and the overlay flag, and leave the hide-toggle, the
selected set and the session's view inputs otherwise unchanged. -/
theorem handleKey_queryKey (sess : Session) (s : EngineState) (k : Key)
    (hdetail : s.showTitleDetail = false) (hsearch : s.searchMode = true)
    (hk : isQueryKey k = true) :
    ∃ s', handleKey sess s k = .cont s' ∧ s'.showTitleDetail = false ∧
      s'.searchMode = true ∧ s'.filterSystem = s.filterSystem ∧
      s'.selectedIndices = s.selectedIndices := by
  cases k with
  | char c =>
      simp only [handleKey]
      repeat' split
      all_goals refine ⟨_, rfl, ?_, ?_, ?_, ?_⟩ <;> simp [hdetail, hsearch]
  | backspace =>
      simp only [handleKey]
      repeat' split
      all_goals refine ⟨_, rfl, ?_, ?_, ?_, ?_⟩ <;> simp [hdetail, hsearch]
  | space =>
      simp only [handleKey, hdetail, hsearch]
      repeat' split
      all_goals solve
        | (exfalso; simp_all)
        | (refine ⟨_, rfl, ?_, ?_, ?_, ?_⟩ <;> simp [hdetail, hsearch])
  | slash =>
      simp only [handleKey, hdetail, hsearch]
      repeat' split
      all_goals solve
        | (exfalso; simp_all)
        | (refine ⟨_, rfl, ?_, ?_, ?_, ?_⟩ <;> simp [hdetail, hsearch])
  | _ => simp [isQueryKey] at hk

/-- The exited and crashed loop states absorb all further events. -/
theorem foldl_stepEvent_absorb (sess : Session) (evts : List Event) :
    (∀ r, evts.foldl (stepEvent sess) (.exited r) = .exited r) ∧
      evts.foldl (stepEvent sess) .crashed = .crashed := by
  induction evts with
  | nil => exact ⟨fun _ => rfl, rfl⟩
  | cons e evts ih =>
      refine ⟨fun r => ?_, ?_⟩
      · have : stepEvent sess (.exited r) e = .exited r := by cases e <;> rfl
        simpa [List.foldl_cons, this] using ih.1 r
      · have : stepEvent sess .crashed e = .crashed := by cases e <;> rfl
        simpa [List.foldl_cons, this] using ih.2

/-- Invariant carrier for the engine loop: a state property preserved by
every continuing key handler holds at any still-running state the loop can
reach. -/
theorem runEvents_invariant (sess : Session) (P : EngineState → Prop)
    (hstep : ∀ s s' k, P s → handleKey sess s k = .cont s' → P s') :
    ∀ (evts : List Event) (rs : RunState),
      (∀ s, rs = .running s → P s) →
      ∀ s', evts.foldl (stepEvent sess) rs = .running s' → P s' := by
  intro evts
  induction evts with
  | nil => intro rs hrs s' h; exact hrs s' h
  | cons e evts ih =>
      intro rs hrs s' h
      rw [List.foldl_cons] at h
      refine ih (stepEvent sess rs e) ?_ s' h
      intro s1 hs1
      cases rs with
      | running s0 =>
          cases e with
          | key k =>
              have hP := hrs s0 rfl
              simp only [stepEvent] at hs1
              cases hh : handleKey sess s0 k with
              | cont s2 =>
                  rw [hh] at hs1
                  simp only [RunState.running.injEq] at hs1
                  exact hs1 ▸ hstep s0 s2 k hP hh
              | exitApp r => rw [hh] at hs1; cases hs1
              | indexError => rw [hh] at hs1; cases hs1
          | interrupt => simp only [stepEvent] at hs1; cases hs1
      | exited r => simp only [stepEvent] at hs1; cases hs1
      | crashed => simp only [stepEvent] at hs1; cases hs1

/-- C9: is_system_process returns false whenever the pid is not 1, the user
is not a system user, the lowercased name contains no known system-process
name and the lowercased command starts with no system path, regardless of
ppid; equivalently, the classifier is extensionally equal to the variant
with the `ppid == '1'` branch removed (the branch is dead and resolves to
returning false). -/
theorem c9_ppid_branch_dead :
    (∀ proc : ProcInfo, proc.pid ≠ 1 →
        SYSTEM_USERS.contains proc.user = false →
        systemNameHit (lowerStr proc.name) = false →
        systemPathHit (lowerStr proc.command) = false →
        isSystemProcess proc = false) ∧
    (∀ proc : ProcInfo, isSystemProcess proc = isSystemProcessNoPpidBranch proc) := by
  constructor
  · intro proc h1 h2 h3 h4
    unfold isSystemProcess
    rw [if_neg h1]
    simp only [h2, h3, h4]
    simp only [Bool.false_eq_true, if_false]
    split <;> (try split) <;> rfl
  · intro proc
    unfold isSystemProcess isSystemProcessNoPpidBranch
    dsimp only
    repeat' split
    all_goals rfl

/-- Witness for C9 at a concrete non-system record whose parent pid is the
init process. -/
theorem c9_ppid_branch_dead_witness :
    isSystemProcess
        ⟨"alice", 42, "1", 0, 0, "S", "0", "1h", "python app.py", "myapp", "app", false⟩
      = false :=
  c9_ppid_branch_dead.1 _ (by decide) (by decide) (by decide) (by decide)

/-- C10: running with a sort-mode value outside the option-key set reports
the invalid value together with the list of valid values (exactly general,
memory, cpu, uptime, zombie) and performs nothing else: no process
collection, no interactive UI, no termination step. -/
theorem c10_invalid_sort_mode (sortBy : String)
    (h : sortOptionKeys.contains sortBy = false)
    (allProcesses : List ProcInfo) (currentPid : Int) (excludeList : List String)
    (nameFilter : Option String) (mkLabel : Nat → ProcInfo → String) (evts : List Event) :
    runWithSortBy sortBy allProcesses currentPid excludeList nameFilter mkLabel evts
        = [.banner, .invalidSortMsg sortBy, .availableOptions sortOptionKeys] ∧
    sortOptionKeys = ["general", "memory", "cpu", "uptime", "zombie"] ∧
    Eff.collectProcesses ∉
      runWithSortBy sortBy allProcesses currentPid excludeList nameFilter mkLabel evts ∧
    Eff.uiLaunched ∉
      runWithSortBy sortBy allProcesses currentPid excludeList nameFilter mkLabel evts ∧
    Eff.killerInvoked ∉
      runWithSortBy sortBy allProcesses currentPid excludeList nameFilter mkLabel evts ∧
    ∀ pids, Eff.terminationPhase pids ∉
      runWithSortBy sortBy allProcesses currentPid excludeList nameFilter mkLabel evts := by
  have htrace :
      runWithSortBy sortBy allProcesses currentPid excludeList nameFilter mkLabel evts
        = [.banner, .invalidSortMsg sortBy, .availableOptions sortOptionKeys] := by
    unfold runWithSortBy
    rw [h]
    rfl
  refine ⟨htrace, rfl, ?_, ?_, ?_, ?_⟩ <;> simp [htrace]

/-- Witness for C10 with the unknown sort mode `foo`. -/
theorem c10_invalid_sort_mode_witness :
    runWithSortBy "foo" [] 0 [] none (fun _ _ => "") []
      = [.banner, .invalidSortMsg "foo", .availableOptions sortOptionKeys] :=
  (c10_invalid_sort_mode "foo" (by decide) [] 0 [] none (fun _ _ => "") []).1

/-- Session used for the paging scenario: 45 choices, no process data. -/
def sess45 : Session := ⟨(List.range 45).map (fun i => (i, "p")), none, []⟩

/-- C4: page boundaries are pageStart = (cursor / pageSize) * pageSize with
floor division and pageEnd = min(pageStart + pageSize, len(filtered));
PageDown moves to pageEnd when rows exist beyond it, else to the last row;
PageUp moves to max(0, pageStart - pageSize), else to row 0; and with
pageSize 20 and 45 filtered items three successive PageDowns from cursor 0
put the cursor at 20, 40 and 44. -/
theorem c4_paging :
    (∀ s : EngineState, getPageStart s = (s.currentIndex.fdiv pageSize) * pageSize) ∧
    (∀ (sess : Session) (s : EngineState),
        getPageEnd sess s
          = min (getPageStart s + pageSize) ((getFilteredChoices sess s).length : Int)) ∧
    (∀ (sess : Session) (s : EngineState), s.showTitleDetail = false →
        handleKey sess s .pagedown
          = if getPageEnd sess s < ((getFilteredChoices sess s).length : Int) then
              .cont { s with currentIndex := min (((getFilteredChoices sess s).length : Int) - 1) (getPageEnd sess s) }
            else
              .cont { s with currentIndex := ((getFilteredChoices sess s).length : Int) - 1 }) ∧
    (∀ (sess : Session) (s : EngineState), s.showTitleDetail = false →
        handleKey sess s .pageup
          = if 0 < getPageStart s then
              .cont { s with currentIndex := max 0 (getPageStart s - pageSize) }
            else
              .cont { s with currentIndex := 0 }) ∧
    runEvents sess45 (initEngineState true) [.key .pagedown]
      = .running { initEngineState true with currentIndex := 20 } ∧
    runEvents sess45 (initEngineState true) [.key .pagedown, .key .pagedown]
      = .running { initEngineState true with currentIndex := 40 } ∧
    runEvents sess45 (initEngineState true) [.key .pagedown, .key .pagedown, .key .pagedown]
      = .running { initEngineState true with currentIndex := 44 } := by
  refine ⟨fun s => rfl, fun sess s => rfl, ?_, ?_, by decide, by decide, by decide⟩
  · intro sess s h
    simp [handleKey, h, pageDownBody, getPageEnd]
  · intro sess s h
    simp [handleKey, h, pageUpBody]

/-- Witness for C4 instantiating the pagedown clause at a concrete state. -/
theorem c4_paging_witness :
    handleKey sess45 (initEngineState true) .pagedown
      = .cont { initEngineState true with currentIndex := 20 } := by
  have h := c4_paging.2.2.1 sess45 (initEngineState true) rfl
  rw [h]
  decide

/-- Session used to exhibit the negative-cursor escape: one choice whose
label does not contain the search text. -/
def c3Session : Session := ⟨[(0, "a")], none, []⟩

/-- C3 (bug exhibit): from the initial state, entering Search mode, typing
`z` (which matches nothing, so the filtered view is empty) and pressing
PageDown drives the cursor to -1, violating the claimed bound
0 <= cursor < max(1, len(filtered)). -/
theorem c3_cursor_goes_negative :
    runEvents c3Session (initEngineState true)
        [.key .slash, .key (.char 'z'), .key .pagedown]
      = .running { selectedIndices := [], currentIndex := -1, filterSystem := true,
                   searchMode := true, searchQuery := "z", showTitleDetail := false,
                   titleDetailIndex := 0 } ∧
    ¬ (0 ≤ ({ selectedIndices := [], currentIndex := -1, filterSystem := true,
              searchMode := true, searchQuery := "z", showTitleDetail := false,
              titleDetailIndex := 0 } : EngineState).currentIndex ∧
       ({ selectedIndices := [], currentIndex := -1, filterSystem := true,
          searchMode := true, searchQuery := "z", showTitleDetail := false,
          titleDetailIndex := 0 } : EngineState).currentIndex
         < max 1 ((getFilteredChoices c3Session
             { selectedIndices := [], currentIndex := -1, filterSystem := true,
               searchMode := true, searchQuery := "z", showTitleDetail := false,
               titleDetailIndex := 0 }).length : Int)) := by
  constructor
  · decide
  · decide

/-- A sequence of hide-toggle / search-editing events keeps the loop running
and leaves the selected set untouched. -/
theorem runEvents_filterSearch_sel (sess : Session) :
    ∀ (evts : List Event) (s : EngineState),
      (∀ e ∈ evts, ∃ k, e = Event.key k ∧ isFilterOrSearchKey k = true) →
      ∃ s', runEvents sess s evts = .running s' ∧
        s'.selectedIndices = s.selectedIndices := by
  intro evts
  induction evts with
  | nil => exact fun s _ => ⟨s, rfl, rfl⟩
  | cons e evts ih =>
      intro s h
      obtain ⟨k, rfl, hk⟩ := h e (List.mem_cons_self e evts)
      obtain ⟨s1, hstep, hsel⟩ := handleKey_filterSearch_selected sess s k hk
      obtain ⟨s', hrun, hsel'⟩ := ih s1 (fun e he => h e (List.mem_cons_of_mem _ he))
      refine ⟨s', ?_, hsel'.trans hsel⟩
      simp only [runEvents, List.foldl_cons, stepEvent, hstep]
      exact hrun

/-- A sequence of query-editing keys typed in Search mode keeps the loop
running, keeps Search mode with no overlay, and leaves the hide-toggle and
the selected set unchanged. -/
theorem runEvents_queryKeys (sess : Session) :
    ∀ (ks : List Key) (s : EngineState),
      s.showTitleDetail = false → s.searchMode = true →
      (∀ k ∈ ks, isQueryKey k = true) →
      ∃ s', runEvents sess s (ks.map Event.key) = .running s' ∧
        s'.showTitleDetail = false ∧ s'.searchMode = true ∧
        s'.filterSystem = s.filterSystem ∧
        s'.selectedIndices = s.selectedIndices := by
  intro ks
  induction ks with
  | nil => exact fun s h1 h2 _ => ⟨s, rfl, h1, h2, rfl, rfl⟩
  | cons k ks ih =>
      intro s h1 h2 h
      obtain ⟨s1, hstep, hd1, hs1, hf1, hsel1⟩ :=
        handleKey_queryKey sess s k h1 h2 (h k (List.mem_cons_self k ks))
      obtain ⟨s', hrun, hd', hs', hf', hsel'⟩ :=
        ih s1 hd1 hs1 (fun k hk => h k (List.mem_cons_of_mem _ hk))
      refine ⟨s', ?_, hd', hs', hf'.trans hf1, hsel'.trans hsel1⟩
      simp only [List.map_cons, runEvents, List.foldl_cons, stepEvent, hstep]
      exact hrun

/-- With Search mode off the filtered view ignores the query text. -/
theorem filterChoicesAux_searchOff {pd : Option (List ProcInfo)} {excl : List String}
    (fs : Bool) (q1 q2 : String) :
    ∀ (n : Nat) (cs : List (Nat × String)),
      filterChoicesAux pd excl fs false q1 n cs = filterChoicesAux pd excl fs false q2 n cs := by
  intro n cs
  induction cs generalizing n with
  | nil => rfl
  | cons hd tl ih =>
      simp only [filterChoicesAux, searchSkip, Bool.false_and]
      split
      · exact ih (n + 1)
      · rw [ih (n + 1)]

/-- C1: in Normal mode, Space toggles membership of the value component of
the filtered entry under the cursor (the stable original index, not the
view position) in the selected set; every hide-toggle or search-editing
key leaves the selected set unchanged; hence an index selected before any
sequence of such keys (hide, unhide, search changes) is still rendered
checked afterwards. -/
theorem c1_stable_index_selection :
    (∀ (sess : Session) (s : EngineState) (i : Nat),
        s.showTitleDetail = false → s.searchMode = false →
        s.currentIndex = (i : Int) →
        ∀ hi : i < (getFilteredChoices sess s).length,
        handleKey sess s .space
          = .cont { s with selectedIndices := toggleSel s.selectedIndices ((getFilteredChoices sess s).get ⟨i, hi⟩).1 }) ∧
    (∀ (sess : Session) (s : EngineState) (k : Key), isFilterOrSearchKey k = true →
        ∃ s', handleKey sess s k = .cont s' ∧ s'.selectedIndices = s.selectedIndices) ∧
    (∀ (sess : Session) (s : EngineState) (v : Nat) (evts : List Event),
        v ∈ s.selectedIndices →
        (∀ e ∈ evts, ∃ k, e = Event.key k ∧ isFilterOrSearchKey k = true) →
        ∃ s', runEvents sess s evts = .running s' ∧
          renderChecked s'.selectedIndices v = true) := by
  refine ⟨?_, handleKey_filterSearch_selected, ?_⟩
  · intro sess s i hdetail hsearch hcur hi
    have hlt : s.currentIndex < ((getFilteredChoices sess s).length : Int) := by
      rw [hcur]; exact_mod_cast hi
    have hpy : pyGet (getFilteredChoices sess s) s.currentIndex
        = some ((getFilteredChoices sess s).get ⟨i, hi⟩) := by
      rw [hcur]
      unfold pyGet
      rw [if_pos (Int.ofNat_nonneg i)]
      simp [List.get?_eq_get hi]
    simp [handleKey, hdetail, hsearch, hlt, hpy]
  · intro sess s v evts hv hevts
    obtain ⟨s', hrun, hsel⟩ := runEvents_filterSearch_sel sess evts s hevts
    refine ⟨s', hrun, ?_⟩
    rw [renderChecked, hsel]
    exact List.elem_eq_true_of_mem hv

/-- Witness for C1: toggling on the single visible row selects its stable
index 5 (deliberately different from the view position 0). -/
theorem c1_stable_index_selection_witness :
    handleKey ⟨[(5, "a")], none, []⟩ (initEngineState true) .space
      = .cont { initEngineState true with selectedIndices := [5] } := by
  have h := c1_stable_index_selection.1 ⟨[(5, "a")], none, []⟩ (initEngineState true) 0
    rfl rfl rfl (by decide)
  rw [h]
  decide

/-- C2: with no detail overlay, Enter exits returning exactly the currently
selected stable-index set, `q` and Ctrl-C exit returning the cancellation
marker, an interrupt delivered to the loop exits with the cancellation
marker; and when every choice value is a valid index into the choices list,
every index selected at any reachable still-running state is a valid index
into the original choices list. -/
theorem c2_commit_and_cancel :
    (∀ (sess : Session) (s : EngineState), s.showTitleDetail = false →
        handleKey sess s .enter = .exitApp (some s.selectedIndices)) ∧
    (∀ (sess : Session) (s : EngineState), s.showTitleDetail = false →
        handleKey sess s .keyQ = .exitApp none ∧ handleKey sess s .ctrlC = .exitApp none) ∧
    (∀ (sess : Session) (s : EngineState),
        stepEvent sess (.running s) .interrupt = .exited none) ∧
    (∀ sess : Session, (∀ p ∈ sess.choices, p.1 < sess.choices.length) →
        ∀ (hide : Bool) (evts : List Event) (s' : EngineState),
          runEvents sess (initEngineState hide) evts = .running s' →
          ∀ v ∈ s'.selectedIndices, v < sess.choices.length) := by
  refine ⟨?_, ?_, ?_, ?_⟩
  · intro sess s h; simp [handleKey, h]
  · intro sess s h; exact ⟨by simp [handleKey, h], by simp [handleKey, h]⟩
  · intro sess s; rfl
  · intro sess hvals hide evts s' hrun
    refine runEvents_invariant sess
      (fun s => ∀ v ∈ s.selectedIndices, v < sess.choices.length) ?_ evts
      (.running (initEngineState hide)) ?_ s' hrun
    · intro s s1 k hP hstep v hv
      rcases handleKey_selected_sub sess s s1 k hstep with hsel | ⟨c, hc, hsel⟩
      · exact hP v (hsel ▸ hv)
      · rw [hsel] at hv
        rcases mem_toggleSel hv with h1 | h1
        · exact hP v h1
        · exact h1 ▸ hvals c (mem_getFilteredChoices hc)
    · intro s0 h0 v hv
      cases h0
      simp [initEngineState] at hv

/-- Witness for C2: Enter commits the empty selection, q cancels. -/
theorem c2_commit_and_cancel_witness :
    handleKey ⟨[(0, "a")], none, []⟩ (initEngineState true) .enter = .exitApp (some []) ∧
    handleKey ⟨[(0, "a")], none, []⟩ (initEngineState true) .keyQ = .exitApp none :=
  ⟨c2_commit_and_cancel.1 ⟨[(0, "a")], none, []⟩ (initEngineState true) rfl,
   (c2_commit_and_cancel.2.1 ⟨[(0, "a")], none, []⟩ (initEngineState true) rfl).1⟩

/-- C7: from Normal mode, pressing `/`, typing any sequence of query keys
and pressing Escape exits Search mode with a cleared query and leaves the
filtered view exactly as it was before Search mode was entered (the
hide-toggle is untouched by these keys). -/
theorem c7_search_roundtrip (sess : Session) (s : EngineState)
    (hdetail : s.showTitleDetail = false) (hsearch : s.searchMode = false)
    (ts : List Key) (hts : ∀ k ∈ ts, isQueryKey k = true) :
    ∃ s', runEvents sess s
        (Event.key Key.slash :: ts.map Event.key ++ [Event.key Key.escape])
        = .running s' ∧
      s'.searchMode = false ∧ s'.searchQuery = "" ∧
      getFilteredChoices sess s' = getFilteredChoices sess s := by
  have hslash : handleKey sess s .slash
      = .cont { s with searchMode := true, searchQuery := "", currentIndex := 0 } := by
    simp [handleKey, hdetail, hsearch]
  obtain ⟨s2, hrun2, hd2, hs2, hf2, _⟩ := runEvents_queryKeys sess ts
    { s with searchMode := true, searchQuery := "", currentIndex := 0 }
    hdetail rfl hts
  have hesc : handleKey sess s2 .escape
      = .cont { s2 with searchMode := false, searchQuery := "", currentIndex := 0 } := by
    simp [handleKey, hd2, hs2]
  refine ⟨{ s2 with searchMode := false, searchQuery := "", currentIndex := 0 }, ?_, rfl, rfl, ?_⟩
  · unfold runEvents
    simp only [List.foldl_cons, List.foldl_append]
    have h1 : stepEvent sess (.running s) (.key .slash)
        = .running { s with searchMode := true, searchQuery := "", currentIndex := 0 } := by
      simp [stepEvent, hslash]
    rw [h1]
    unfold runEvents at hrun2
    rw [hrun2]
    simp [List.foldl_cons, List.foldl_nil, stepEvent, hesc]
  · have hstep1 : getFilteredChoices sess
        { s2 with searchMode := false, searchQuery := "", currentIndex := 0 }
        = filterChoicesAux sess.processData sess.excludeList s2.filterSystem false "" 0
            sess.choices := rfl
    rw [hstep1, filterChoicesAux_searchOff s2.filterSystem "" s.searchQuery]
    rw [hf2]
    unfold getFilteredChoices
    rw [hsearch]

/-- Witness for C7: one-row session, query `z`, round trip restores the
view. -/
theorem c7_search_roundtrip_witness :
    ∃ s', runEvents ⟨[(0, "a")], none, []⟩ (initEngineState true)
        (Event.key Key.slash :: [Key.char 'z'].map Event.key ++ [Event.key Key.escape])
        = .running s' ∧
      s'.searchMode = false ∧ s'.searchQuery = "" ∧
      getFilteredChoices ⟨[(0, "a")], none, []⟩ s'
        = getFilteredChoices ⟨[(0, "a")], none, []⟩ (initEngineState true) :=
  c7_search_roundtrip ⟨[(0, "a")], none, []⟩ (initEngineState true) rfl rfl
    [Key.char 'z'] (by decide)

/-- The pre-filter keeps only records that fail the system-process and the
exclusion predicate. -/
theorem prefilter_not_system_not_excluded {currentPid : Int} {excludeList : List String}
    {nameFilter : Option String} {processes : List ProcInfo} {proc : ProcInfo}
    (h : proc ∈ prefilterProcesses currentPid excludeList nameFilter processes) :
    isSystemProcess proc = false ∧ filterIsExcluded excludeList proc = false := by
  have hkeep := (List.mem_filter.mp h).2
  unfold prefilterKeep at hkeep
  simp only [Bool.and_eq_true, Bool.not_eq_true'] at hkeep
  exact ⟨hkeep.1.1.2, hkeep.1.2⟩

/-- Over the session built by `select_processes`, the system/exclusion skip
test never fires: every process-data record has already survived the same
predicates. -/
theorem displaySession_systemSkip_false (currentPid : Int) (excludeList : List String)
    (nameFilter : Option String) (mkLabel : Nat → ProcInfo → String)
    (processes : List ProcInfo) :
    ∀ (fs : Bool) (idx : Nat),
      systemSkip (displayEngineSession currentPid excludeList nameFilter mkLabel
          processes).processData excludeList fs idx = false := by
  intro fs idx
  unfold systemSkip displayEngineSession
  simp only [Option.bind_eq_bind, Option.some_bind]
  cases hg : (prefilterProcesses currentPid excludeList nameFilter processes).get? idx with
  | none => simp
  | some proc =>
      have hmem := List.get?_mem hg
      obtain ⟨h1, h2⟩ := prefilter_not_system_not_excluded hmem
      have h2' : isExcludedProcess excludeList proc = false := h2
      simp [h1, h2']

/-- C8: every record handed to the engine as process data already fails both
the system-process predicate and the exclusion predicate, so the engine's
filtered view is the same with the hide-toggle on or off (for any search
state), and pressing `e` never changes the set of visible rows. -/
theorem c8_prefilter_engine_agreement (currentPid : Int) (excludeList : List String)
    (nameFilter : Option String) (mkLabel : Nat → ProcInfo → String)
    (processes : List ProcInfo) :
    (∀ proc ∈ prefilterProcesses currentPid excludeList nameFilter processes,
        isSystemProcess proc = false ∧ filterIsExcluded excludeList proc = false) ∧
    (∀ s : EngineState,
        getFilteredChoices (displayEngineSession currentPid excludeList nameFilter mkLabel processes)
            { s with filterSystem := true }
          = getFilteredChoices (displayEngineSession currentPid excludeList nameFilter mkLabel processes)
            { s with filterSystem := false }) ∧
    (∀ s : EngineState, ∃ s',
        handleKey (displayEngineSession currentPid excludeList nameFilter mkLabel processes) s .keyE
          = .cont s' ∧
        getFilteredChoices (displayEngineSession currentPid excludeList nameFilter mkLabel processes) s'
          = getFilteredChoices (displayEngineSession currentPid excludeList nameFilter mkLabel processes) s) := by
  have hskip := displaySession_systemSkip_false currentPid excludeList nameFilter mkLabel processes
  have hfsIrrel : ∀ (fs1 fs2 sm : Bool) (q : String),
      filterChoicesAux (displayEngineSession currentPid excludeList nameFilter mkLabel
          processes).processData excludeList fs1 sm q 0
        (displayEngineSession currentPid excludeList nameFilter mkLabel processes).choices
      = filterChoicesAux (displayEngineSession currentPid excludeList nameFilter mkLabel
          processes).processData excludeList fs2 sm q 0
        (displayEngineSession currentPid excludeList nameFilter mkLabel processes).choices :=
    fun fs1 fs2 sm q => filterChoicesAux_filterSystem_irrel hskip fs1 fs2 sm q 0 _
  refine ⟨fun proc h => prefilter_not_system_not_excluded h, ?_, ?_⟩
  · intro s
    exact hfsIrrel true false s.searchMode s.searchQuery
  · intro s
    by_cases hd : s.showTitleDetail
    · refine ⟨{ s with showTitleDetail := false }, by simp [handleKey, hd], ?_⟩
      exact getFilteredChoices_congr rfl rfl rfl
    · have hfilt : getFilteredChoices (displayEngineSession currentPid excludeList nameFilter mkLabel processes)
            { s with filterSystem := !s.filterSystem }
          = getFilteredChoices (displayEngineSession currentPid excludeList nameFilter mkLabel processes) s :=
        hfsIrrel (!s.filterSystem) s.filterSystem s.searchMode s.searchQuery
      by_cases hc : ((getFilteredChoices (displayEngineSession currentPid excludeList nameFilter mkLabel processes)
            { s with filterSystem := !s.filterSystem }).length : Int) ≤ s.currentIndex
      · have hstep : handleKey (displayEngineSession currentPid excludeList nameFilter mkLabel processes) s .keyE
            = .cont { s with filterSystem := !s.filterSystem, currentIndex := max 0 (((getFilteredChoices (displayEngineSession currentPid excludeList nameFilter mkLabel processes) { s with filterSystem := !s.filterSystem }).length : Int) - 1) } := by
          simp only [handleKey]
          rw [if_neg hd]
          try dsimp only
          rw [if_pos hc]
        exact ⟨_, hstep, (getFilteredChoices_congr rfl rfl rfl).trans hfilt⟩
      · have hstep : handleKey (displayEngineSession currentPid excludeList nameFilter mkLabel processes) s .keyE
            = .cont { s with filterSystem := !s.filterSystem } := by
          simp only [handleKey]
          rw [if_neg hd]
          try dsimp only
          rw [if_neg hc]
        exact ⟨_, hstep, hfilt⟩

/-- Witness for C8: with one user record and one system record, the engine
view over the pre-filtered data is identical with the hide-toggle on and
off. -/
theorem c8_prefilter_engine_agreement_witness :
    getFilteredChoices (displayEngineSession 999 [] none (fun _ _ => "L")
        [⟨"alice", 42, "500", 0, 0, "S", "0", "1h", "python app.py", "myapp", "app", false⟩,
         ⟨"root", 1, "0", 0, 0, "S", "0", "9h", "/sbin/launchd", "launchd", "sys", false⟩])
      { initEngineState true with filterSystem := true }
      = getFilteredChoices (displayEngineSession 999 [] none (fun _ _ => "L")
        [⟨"alice", 42, "500", 0, 0, "S", "0", "1h", "python app.py", "myapp", "app", false⟩,
         ⟨"root", 1, "0", 0, 0, "S", "0", "9h", "/sbin/launchd", "launchd", "sys", false⟩])
      { initEngineState true with filterSystem := false } :=
  (c8_prefilter_engine_agreement 999 [] none (fun _ _ => "L")
      [⟨"alice", 42, "500", 0, 0, "S", "0", "1h", "python app.py", "myapp", "app", false⟩,
       ⟨"root", 1, "0", 0, 0, "S", "0", "9h", "/sbin/launchd", "launchd", "sys", false⟩]).2.1
    (initEngineState true)

/-- Inserting into the sorted accumulator is a permutation of consing. -/
theorem insertLe_perm (le : α → α → Bool) (x : α) :
    ∀ l : List α, (insertLe le x l).Perm (x :: l) := by
  intro l
  induction l with
  | nil => exact List.Perm.refl _
  | cons y ys ih =>
      unfold insertLe
      split
      · exact List.Perm.refl _
      · exact (ih.cons y).trans (List.Perm.swap x y ys)

/-- The sort model permutes its input. -/
theorem sortLe_perm (le : α → α → Bool) :
    ∀ l : List α, (sortLe le l).Perm l := by
  intro l
  induction l with
  | nil => exact List.Perm.refl _
  | cons x xs ih =>
      have h1 : sortLe le (x :: xs) = insertLe le x (sortLe le xs) := rfl
      rw [h1]
      exact (insertLe_perm le x (sortLe le xs)).trans (ih.cons x)

/-- Every sort strategy returns a permutation of its input (so it never
creates, drops or alters a record, in particular no `selected` flag). -/
theorem sortByChoice_perm (choice : String) (l : List ProcInfo) :
    (sortByChoice choice l).Perm l := by
  unfold sortByChoice
  repeat' split
  · exact sortLe_perm _ l
  · exact sortLe_perm _ l
  · exact sortLe_perm _ l
  · exact sortLe_perm _ l
  · exact List.filter_append_perm _ l
  · exact List.Perm.refl l

/-- The pids selected by the commit loop: for each returned index in range,
the pid of the pre-filtered record at that index. -/
def targetPids (fp : List ProcInfo) (idxs : List Nat) : List Int :=
  idxs.filterMap (fun idx => (fp.get? idx).map (fun p => p.pid))

/-- Flag assignment by pid membership; the commit loop is proved equal to
this when pids are unique. -/
def mapSelByPid (m : List Int) (l : List ProcInfo) : List ProcInfo :=
  l.map (fun p => { p with selected := decide (p.pid ∈ m) })

/-- Marking a pid that occurs nowhere changes nothing. -/
theorem map_mark_eq_self {pid : Int} :
    ∀ {l : List ProcInfo}, (∀ q ∈ l, q.pid ≠ pid) →
      l.map (fun p => if p.pid = pid then { p with selected := true } else p) = l := by
  intro l
  induction l with
  | nil => intro _; rfl
  | cons p rest ih =>
      intro h
      simp only [List.map_cons]
      rw [if_neg (h p (List.mem_cons_self p rest)), ih (fun q hq => h q (List.mem_cons_of_mem p hq))]

/-- With pairwise distinct pids, marking the first match equals marking
every match. -/
theorem markFirst_eq_map {pid : Int} :
    ∀ {l : List ProcInfo}, (l.map (fun p => p.pid)).Nodup →
      markFirst pid l = l.map (fun p => if p.pid = pid then { p with selected := true } else p) := by
  intro l
  induction l with
  | nil => intro _; rfl
  | cons p rest ih =>
      intro hnd
      rw [List.map_cons, List.nodup_cons] at hnd
      by_cases hp : p.pid = pid
      · have hrest : ∀ q ∈ rest, q.pid ≠ pid := by
          intro q hq hqp
          exact hnd.1 (hp ▸ hqp ▸ List.mem_map_of_mem (fun r => r.pid) hq)
        simp only [markFirst, List.map_cons, if_pos hp]
        rw [map_mark_eq_self hrest]
      · simp only [markFirst, List.map_cons, if_neg hp]
        rw [ih hnd.2]

/-- Pids are untouched by the pid-membership flag assignment. -/
theorem mapSelByPid_pids (m : List Int) (l : List ProcInfo) :
    (mapSelByPid m l).map (fun p => p.pid) = l.map (fun p => p.pid) := by
  unfold mapSelByPid
  rw [List.map_map]
  rfl

/-- One marking pass over a pid-membership assignment extends the
membership list, provided pids are pairwise distinct. -/
theorem markFirst_mapSelByPid {processes : List ProcInfo}
    (hnd : (processes.map (fun p => p.pid)).Nodup) (m : List Int) (pid : Int) :
    markFirst pid (mapSelByPid m processes) = mapSelByPid (m ++ [pid]) processes := by
  have hnd2 : ((mapSelByPid m processes).map (fun p => p.pid)).Nodup := by
    rw [mapSelByPid_pids]; exact hnd
  rw [markFirst_eq_map hnd2]
  unfold mapSelByPid
  rw [List.map_map]
  apply List.map_congr_left
  intro p _
  simp only [Function.comp]
  by_cases hp : p.pid = pid
  · rw [if_pos hp]
    simp [hp, List.mem_append]
  · rw [if_neg hp]
    simp [List.mem_append, hp]

/-- The commit fold computes the pid-membership assignment over the target
pids, provided pids are pairwise distinct. -/
theorem applyFold_eq_mapSelByPid {processes : List ProcInfo}
    (hnd : (processes.map (fun p => p.pid)).Nodup) (fp : List ProcInfo) :
    ∀ (idxs : List Nat) (m : List Int),
      idxs.foldl
          (fun acc idx =>
            match fp.get? idx with
            | some originalProc => markFirst originalProc.pid acc
            | none => acc)
          (mapSelByPid m processes)
        = mapSelByPid (m ++ targetPids fp idxs) processes := by
  intro idxs
  induction idxs with
  | nil => intro m; simp [targetPids]
  | cons idx rest ih =>
      intro m
      rw [List.foldl_cons]
      cases hg : fp.get? idx with
      | none =>
          simp only [hg]
          rw [ih m]
          have hg' : fp[idx]? = none := by rw [← List.get?_eq_getElem?]; exact hg
          simp [targetPids, List.filterMap_cons, hg']
      | some op =>
          simp only [hg]
          rw [markFirst_mapSelByPid hnd m op.pid, ih (m ++ [op.pid])]
          have hg' : fp[idx]? = some op := by rw [← List.get?_eq_getElem?]; exact hg
          simp [targetPids, List.filterMap_cons, hg', List.append_assoc]

/-- The commit loop of `select_processes`, as a whole: clear, then mark, is
the pid-membership assignment over the target pids. -/
theorem applySelectedIndices_eq {processes : List ProcInfo}
    (hnd : (processes.map (fun p => p.pid)).Nodup) (fp : List ProcInfo) (idxs : List Nat) :
    applySelectedIndices processes fp idxs = mapSelByPid (targetPids fp idxs) processes := by
  unfold applySelectedIndices
  have hclear : clearSelected processes = mapSelByPid [] processes := by
    unfold clearSelected mapSelByPid
    apply List.map_congr_left
    intro p _
    simp
  rw [hclear, applyFold_eq_mapSelByPid hnd fp idxs []]
  rfl

/-- C6: the selected flag is mutated only by the commit step of
select_processes.  Every sort strategy returns a permutation of its input
records (flags included, untouched); the pre-filter is a sublist of its
input (no record altered); a cancelled engine session leaves the caller's
list exactly as it was; a confirmed non-empty selection, under the snapshot
invariant of pairwise-distinct pids, leaves a record selected iff its pid
equals the pid of a pre-filtered record whose stable index was returned,
and every other record deselected. -/
theorem c6_selected_flag_frame :
    (∀ (choice : String) (l : List ProcInfo), (sortByChoice choice l).Perm l) ∧
    (∀ (currentPid : Int) (excludeList : List String) (nameFilter : Option String)
        (processes : List ProcInfo),
        (prefilterProcesses currentPid excludeList nameFilter processes).Sublist processes) ∧
    (∀ (currentPid : Int) (excludeList : List String) (nameFilter : Option String)
        (mkLabel : Nat → ProcInfo → String) (processes : List ProcInfo) (evts : List Event),
        runEvents (displayEngineSession currentPid excludeList nameFilter mkLabel processes)
            (initEngineState true) evts = .exited none →
        (selectProcessesModel currentPid excludeList nameFilter mkLabel processes evts).1
          = processes) ∧
    (∀ (currentPid : Int) (excludeList : List String) (nameFilter : Option String)
        (mkLabel : Nat → ProcInfo → String) (processes : List ProcInfo) (evts : List Event)
        (idxs : List Nat),
        (processes.map (fun p => p.pid)).Nodup →
        (prefilterProcesses currentPid excludeList nameFilter processes).isEmpty = false →
        runEvents (displayEngineSession currentPid excludeList nameFilter mkLabel processes)
            (initEngineState true) evts = .exited (some idxs) →
        idxs ≠ [] →
        (selectProcessesModel currentPid excludeList nameFilter mkLabel processes evts).1
          = mapSelByPid
              (targetPids (prefilterProcesses currentPid excludeList nameFilter processes) idxs)
              processes) := by
  refine ⟨sortByChoice_perm, fun _ _ _ _ => List.filter_sublist _, ?_, ?_⟩
  · intro currentPid excludeList nameFilter mkLabel processes evts h
    simp only [selectProcessesModel]
    rw [h]
    split
    · rfl
    · split
      · rfl
      · rfl
  · intro currentPid excludeList nameFilter mkLabel processes evts idxs hnd hfp hrun hne
    have hproc : processes.isEmpty = false := by
      cases processes with
      | nil => simp [prefilterProcesses] at hfp
      | cons a l => rfl
    have hni : idxs.isEmpty = false := by
      cases idxs with
      | nil => exact absurd rfl hne
      | cons a l => rfl
    simp only [selectProcessesModel, hproc, hfp, Bool.false_eq_true, if_false]
    rw [hrun]
    simp only [hni, Bool.false_eq_true, if_false]
    exact applySelectedIndices_eq hnd _ idxs

/-- Witness for C6: one user record, Space then Enter selects it; the
commit step flips exactly its flag. -/
theorem c6_selected_flag_frame_witness :
    (selectProcessesModel 999 [] none (fun _ _ => "L")
        [⟨"alice", 42, "500", 0, 0, "S", "0", "1h", "python app.py", "myapp", "app", false⟩]
        [.key .space, .key .enter]).1
      = [⟨"alice", 42, "500", 0, 0, "S", "0", "1h", "python app.py", "myapp", "app", true⟩] := by
  have h := c6_selected_flag_frame.2.2.2 999 [] none (fun _ _ => "L")
      [⟨"alice", 42, "500", 0, 0, "S", "0", "1h", "python app.py", "myapp", "app", false⟩]
      [.key .space, .key .enter] [0] (by decide) (by decide) (by decide) (by decide)
  rw [h]
  decide

/-- C5 counterexample: cancelling the selection UI with `q` does not stop
the iteration at the session loop.  The controller trace still invokes the
termination step (which finds nothing selected) and contains no friendly
exit message, contradicting the claim that the cancelled outcome propagates
to the session loop, a friendly exit message is printed, and no termination
step runs. -/
theorem c5_cancel_counterexample :
    runWithSortBy "cpu"
        [⟨"alice", 42, "500", 0, 0, "S", "0", "1h", "python app.py", "myapp", "app", false⟩]
        999 [] none (fun _ _ => "L") [.key .keyQ]
      = [.banner, .printCollecting, .collectProcesses, .uiLaunched,
         .killerInvoked, .printNoneSelectedKiller] ∧
    Eff.killerInvoked ∈ runWithSortBy "cpu"
        [⟨"alice", 42, "500", 0, 0, "S", "0", "1h", "python app.py", "myapp", "app", false⟩]
        999 [] none (fun _ _ => "L") [.key .keyQ] ∧
    Eff.friendlyExit ∉ runWithSortBy "cpu"
        [⟨"alice", 42, "500", 0, 0, "S", "0", "1h", "python app.py", "myapp", "app", false⟩]
        999 [] none (fun _ _ => "L") [.key .keyQ] := by
  refine ⟨by decide, by decide, by decide⟩

/-- C5 (amended): an engine-level cancellation propagates as the None
marker to the display layer, which leaves every record unchanged; the
session controller then still calls the termination step, which prints the
empty-selection notice and sends no termination signal; no friendly exit
message appears in that iteration's trace. -/
theorem c5_cancel_amended (choice : String) (processes : List ProcInfo)
    (currentPid : Int) (excludeList : List String) (nameFilter : Option String)
    (mkLabel : Nat → ProcInfo → String) (evts : List Event)
    (hflags : ∀ p ∈ processes, p.selected = false)
    (hfp : (prefilterProcesses currentPid excludeList nameFilter
        (sortByChoice choice processes)).isEmpty = false)
    (hcancel : runEvents (displayEngineSession currentPid excludeList nameFilter mkLabel
        (sortByChoice choice processes)) (initEngineState true) evts = .exited none) :
    executeSortOption choice processes currentPid excludeList nameFilter mkLabel evts
      = [.printCollecting, .collectProcesses, .uiLaunched,
         .killerInvoked, .printNoneSelectedKiller] ∧
    (selectProcessesModel currentPid excludeList nameFilter mkLabel
        (sortByChoice choice processes) evts).1
      = sortByChoice choice processes ∧
    (∀ pids, Eff.terminationPhase pids ∉
        executeSortOption choice processes currentPid excludeList nameFilter mkLabel evts) ∧
    Eff.friendlyExit ∉
      executeSortOption choice processes currentPid excludeList nameFilter mkLabel evts := by
  have hperm := sortByChoice_perm choice processes
  have hsorted_ne : (sortByChoice choice processes).isEmpty = false := by
    cases hs : sortByChoice choice processes with
    | nil => rw [hs] at hfp; simp [prefilterProcesses] at hfp
    | cons a l => rfl
  have hproc_ne : processes.isEmpty = false := by
    cases hp : processes with
    | nil =>
        exfalso
        rw [hp] at hperm hsorted_ne
        rw [hperm.eq_nil] at hsorted_ne
        simp at hsorted_ne
    | cons a l => rfl
  have hsel_r : selectProcessesModel currentPid excludeList nameFilter mkLabel
      (sortByChoice choice processes) evts = (sortByChoice choice processes, [.uiLaunched]) := by
    simp only [selectProcessesModel, hsorted_ne, hfp, Bool.false_eq_true, if_false]
    rw [hcancel]
  have hfilter : (sortByChoice choice processes).filter (fun p => p.selected) = [] := by
    rw [List.filter_eq_nil_iff]
    intro p hp
    simp [hflags p (hperm.mem_iff.mp hp)]
  have htrace : executeSortOption choice processes currentPid excludeList nameFilter mkLabel evts
      = [.printCollecting, .collectProcesses, .uiLaunched,
         .killerInvoked, .printNoneSelectedKiller] := by
    simp only [executeSortOption, hproc_ne, hsorted_ne, Bool.false_eq_true, if_false]
    rw [hsel_r]
    simp [killSelectedEffs, hfilter]
  refine ⟨htrace, ?_, ?_, ?_⟩
  · rw [hsel_r]
  · intro pids; rw [htrace]; simp
  · rw [htrace]; simp

/-- Witness for the amended C5 at a one-record snapshot cancelled with q. -/
theorem c5_cancel_amended_witness :
    executeSortOption "cpu"
        [⟨"alice", 42, "500", 0, 0, "S", "0", "1h", "python app.py", "myapp", "app", false⟩]
        999 [] none (fun _ _ => "L") [.key .keyQ]
      = [.printCollecting, .collectProcesses, .uiLaunched,
         .killerInvoked, .printNoneSelectedKiller] :=
  (c5_cancel_amended "cpu"
      [⟨"alice", 42, "500", 0, 0, "S", "0", "1h", "python app.py", "myapp", "app", false⟩]
      999 [] none (fun _ _ => "L") [.key .keyQ]
      (by decide) (by decide) (by decide)).1
